import Mathlib

/-!
Shallow embedding of the Projectbrainsaver multi-agent application
(`projectbrainsaver.py`): the intent dispatch and memory retrieval engine,
that is `MemoryAgent` (interaction store), `GuardianOrchestrator.interpret_request`
(intent classifier), `GuardianOrchestrator._execute_agent_action` and
`GuardianOrchestrator.process_request` (turn sequencing) and
`GuardianOrchestrator._compile_response` (response compiler).

Modelling choices:
- Text is `List Char` (`Txt`).  Python `str.lower` and SQL `LOWER` are both
  modelled by `Char.toLower` (ASCII case folding, which is exactly what SQL
  `LOWER` does; Python agrees on ASCII, and all strings occurring in the
  program and in the claims are ASCII).
- The SQLite database is an explicit `Store` value.  `sqlite3.connect`
  raising on an unreachable database file is modelled by the `reachable`
  flag: every store operation returns `Except PyErr _` and fails with
  `PyErr.storageError` when the store is unreachable.  Timestamps
  (`datetime.now().isoformat()`, strictly increasing ISO-8601 strings within
  a run) are modelled as a strictly increasing `Nat` counter `nextTime`;
  `ORDER BY timestamp DESC` is an insertion sort on that counter.
- SQL `LIKE` is `likeMatch` below: a `%` in the pattern matches any sequence
  of characters and `_` matches exactly one character, as in SQLite.  SQLite
  compares the remaining characters ASCII-case-insensitively; because both
  the search terms (lowered by Python) and the fields (lowered by SQL
  `LOWER`) contain no ASCII uppercase letters when they are compared, plain
  character equality is the faithful model of that comparison.
- The six handler adapters (research, file, automation, phone, domain
  agents) are external side-effecting collaborators; they are modelled by an
  `Adapters` record of oracles, each returning `Except Txt AgentResponse`
  where `Except.error msg` stands for the adapter raising an exception whose
  `str(e)` is `msg`.  The derivation of their call arguments from the raw
  input is part of `_execute_agent_action` and is embedded faithfully.
- A Python function that falls off the end of an `if/elif` chain returns
  `None`; `_execute_agent_action` can do so, hence its model returns
  `Option AgentResponse`.  `process_request` then evaluates
  `agent_response.actions_taken` on that `None`, raising `AttributeError`,
  modelled as `PyErr.attributeError`.
-/

/-- Text, modelling a Python `str` as its list of characters. -/
abbrev Txt := List Char

/-- Python `str.lower` and SQL `LOWER` (ASCII case folding). -/
def lowerTxt (s : Txt) : Txt := s.map Char.toLower

/-- Python `str.startswith` on character lists (also the prefix step of the
substring test). -/
def startsWith : Txt → Txt → Bool
  | [], _ => true
  | _ :: _, [] => false
  | a :: ta, b :: tb => (a == b) && startsWith ta tb

/-- Python substring containment, `needle in haystack`. -/
def containsSub (needle : Txt) : Txt → Bool
  | [] => needle.isEmpty
  | b :: tb => startsWith needle (b :: tb) || containsSub needle tb

/-- Helper for `splitWs`; `acc` is the current word, reversed. -/
def splitWsAux : Txt → Txt → List Txt
  | [], acc => if acc.isEmpty then [] else [acc.reverse]
  | c :: t, acc =>
    if c.isWhitespace then
      if acc.isEmpty then splitWsAux t [] else acc.reverse :: splitWsAux t []
    else splitWsAux t (c :: acc)

/-- Python `str.split()` with no argument: split on runs of whitespace,
dropping empty pieces. -/
def splitWs (s : Txt) : List Txt := splitWsAux s []

/-- Fuelled worker for `replaceAll`; the fuel is an upper bound on the
number of characters still to be consumed, so `replaceAll` never exhausts
it. -/
def replaceAllF : Nat → Txt → Txt → Txt → Txt
  | 0, s, _, _ => s
  | n + 1, s, pat, rep =>
    if pat.isEmpty then s
    else
      match s with
      | [] => []
      | c :: t =>
        if startsWith pat (c :: t) then rep ++ replaceAllF n ((c :: t).drop pat.length) pat rep
        else c :: replaceAllF n t pat rep

/-- Python `str.replace` (all occurrences, scanned left to right; the
patterns used by this program are never empty). -/
def replaceAll (s pat rep : Txt) : Txt := replaceAllF s.length s pat rep

/-- Python `str.strip()` with no argument: remove leading and trailing
whitespace. -/
def stripWs (s : Txt) : Txt :=
  ((s.dropWhile Char.isWhitespace).reverse.dropWhile Char.isWhitespace).reverse

/-- Python `str.strip(cs)`: remove leading and trailing characters drawn
from `cs`. -/
def stripChars (cs : Txt) (s : Txt) : Txt :=
  ((s.dropWhile (fun c => cs.contains c)).reverse.dropWhile (fun c => cs.contains c)).reverse

/-- Decimal rendering of a natural number, as Python `str`. -/
def natTxt (n : Nat) : Txt := (Nat.repr n).data

/-- Decimal rendering of an integer, as Python `str`. -/
def intTxt : Int → Txt
  | .ofNat m => natTxt m
  | .negSucc m => '-' :: natTxt (m + 1)

/-- Python `sep.join(parts)`. -/
def joinSep (sep : Txt) : List Txt → Txt
  | [] => []
  | [x] => x
  | x :: y :: t => x ++ sep ++ joinSep sep (y :: t)

/-- Fuelled worker for `likeMatch`.  A `%` in the pattern matches any
sequence of characters, `_` matches exactly one character, any other
pattern character matches one equal character (see the header note on why
plain equality is the faithful model of SQLite's comparison here).  The
fuel strictly exceeds the combined length of pattern and string at every
call made through `likeMatch`, so the `0` case is never reached. -/
def likeMatchF : Nat → Txt → Txt → Bool
  | 0, _, _ => false
  | n + 1, p, s =>
    match p, s with
    | [], [] => true
    | [], _ :: _ => false
    | c :: ps, [] => if c == '%' then likeMatchF n ps [] else false
    | c :: ps, d :: s2 =>
      if c == '%' then likeMatchF n ps (d :: s2) || likeMatchF n (c :: ps) s2
      else ((c == '_') || (c == d)) && likeMatchF n ps s2

/-- SQLite `string LIKE pattern`. -/
def likeMatch (p s : Txt) : Bool := likeMatchF (p.length + s.length + 1) p s

/-- The pattern `f"%{term}%"` built by `retrieve_relevant`. -/
def pct (t : Txt) : Txt := '%' :: (t ++ ['%'])

/-- A term containing no SQL `LIKE` wildcard characters. -/
def wcFree (t : Txt) : Bool := t.all (fun c => !(c == '%') && !(c == '_'))

/-- A value stored in an `AgentResponse.data` mapping; the response compiler
only renders `int` and `str` values (`isinstance(value, (int, str))`), so
every other Python value is collapsed to `vOther`. -/
inductive PyVal where
  | vInt : Int → PyVal
  | vStr : Txt → PyVal
  | vOther : PyVal
deriving DecidableEq

/-- The dataclass `AgentResponse`. -/
structure AgentResponse where
  success : Bool
  message : Txt
  data : Option (List (Txt × PyVal))
  actions_taken : Option (List Txt)
deriving DecidableEq

/-- One row of the `interactions` table. -/
structure Interaction where
  timestamp : Nat
  user_input : Txt
  agent_output : Txt
  session_id : Txt
  context_tags : Txt
deriving DecidableEq

/-- One dictionary returned by `retrieve_relevant` (the selected columns:
`timestamp, user_input, agent_output, context_tags`). -/
structure Row where
  timestamp : Nat
  user_input : Txt
  agent_output : Txt
  context_tags : Txt
deriving DecidableEq

/-- One row of the `user_preferences` table. -/
structure Pref where
  key : Txt
  value : Txt
  updated_at : Nat
deriving DecidableEq

/-- The SQLite database behind `MemoryAgent`.  `reachable` models whether
`sqlite3.connect(self.db_path)` succeeds; `nextTime` is the monotone clock
standing for `datetime.now().isoformat()`. -/
structure Store where
  reachable : Bool
  interactions : List Interaction
  prefs : List Pref
  nextTime : Nat
deriving DecidableEq

/-- The Python exceptions that can cross function boundaries in the
modelled code. -/
inductive PyErr where
  | storageError
  | attributeError
deriving DecidableEq

/-- The `str(e)` text of an exception (used by the `except` clause of
`_execute_agent_action`; the exact wording is irrelevant to every claim). -/
def PyErr.msg : PyErr → Txt
  | .storageError => "unable to open database file".data
  | .attributeError => "NoneType object has no attribute actions_taken".data

/-- `MemoryAgent.save_interaction`: append one row, `timestamp` taken from
the clock. -/
def saveInteraction (store : Store) (ui ao sid tags : Txt) : Except PyErr Store :=
  if store.reachable then
    .ok { store with
      interactions := store.interactions ++ [⟨store.nextTime, ui, ao, sid, tags⟩],
      nextTime := store.nextTime + 1 }
  else .error .storageError

/-- Column projection of the `SELECT` in `retrieve_relevant`. -/
def toRow (it : Interaction) : Row :=
  ⟨it.timestamp, it.user_input, it.agent_output, it.context_tags⟩

/-- One conjunct of the `WHERE` clause built by `retrieve_relevant`:
`(LOWER(user_input) LIKE ? OR LOWER(agent_output) LIKE ?)` with both
parameters `f"%{term}%"`. -/
def termCond (term : Txt) (it : Interaction) : Bool :=
  likeMatch (pct term) (lowerTxt it.user_input) ||
    likeMatch (pct term) (lowerTxt it.agent_output)

/-- The literal reading of a term condition asserted by the specification:
the (already lowered) term occurs as a substring of a lowered field. -/
def specTermCond (term : Txt) (it : Interaction) : Bool :=
  containsSub term (lowerTxt it.user_input) ||
    containsSub term (lowerTxt it.agent_output)

/-- Insertion step of `sortDesc`. -/
def insertDesc (x : Interaction) : List Interaction → List Interaction
  | [] => [x]
  | y :: t => if y.timestamp ≤ x.timestamp then x :: y :: t else y :: insertDesc x t

/-- `ORDER BY timestamp DESC`.  On well-formed stores the timestamps are
strictly increasing in insertion order, so this is the reverse of insertion
order and ties never arise. -/
def sortDesc : List Interaction → List Interaction
  | [] => []
  | x :: t => insertDesc x (sortDesc t)

/-- Timestamps strictly increase along the list (the invariant every store
built by `saveInteraction` satisfies). -/
def timesAsc : List Interaction → Bool
  | [] => true
  | [_] => true
  | a :: b :: t => decide (a.timestamp < b.timestamp) && timesAsc (b :: t)

/-- `MemoryAgent.retrieve_relevant`: tokenize `query.lower().split()`; with
no terms there is no `WHERE` clause, otherwise every term condition must
hold; order by timestamp descending; `LIMIT limit`. -/
def retrieveRelevant (store : Store) (query : Txt) (limit : Nat) :
    Except PyErr (List Row) :=
  if store.reachable then
    .ok (((sortDesc
      (if (splitWs (lowerTxt query)).isEmpty then store.interactions
       else store.interactions.filter
         (fun it => (splitWs (lowerTxt query)).all (fun t => termCond t it)))).take
            limit).map toRow)
  else .error .storageError

/-- `MemoryAgent.set_preference`: `INSERT OR REPLACE` keyed on `key`
(SQLite deletes every conflicting row and inserts the new one). -/
def setPreference (store : Store) (k v : Txt) : Except PyErr Store :=
  if store.reachable then
    .ok { store with
      prefs := store.prefs.filter (fun q => !(q.key == k)) ++ [⟨k, v, store.nextTime⟩],
      nextTime := store.nextTime + 1 }
  else .error .storageError

/-- `MemoryAgent.get_preference`: `SELECT value FROM user_preferences WHERE
key = ?`, `fetchone`. -/
def getPreference (store : Store) (k : Txt) : Except PyErr (Option Txt) :=
  if store.reachable then
    .ok ((store.prefs.find? (fun q => q.key == k)).map (fun q => q.value))
  else .error .storageError

/-- File-management trigger words of `interpret_request`. -/
def fileWords : List Txt :=
  ["file".data, "folder".data, "organize".data, "find".data, "duplicate".data]

/-- Research trigger words. -/
def researchWords : List Txt :=
  ["search".data, "research".data, "find information".data, "look up".data]

/-- Domain-management trigger words. -/
def domainWords : List Txt :=
  ["domain".data, "dns".data, "website".data, "server".data]

/-- Phone-management trigger words. -/
def phoneWords : List Txt :=
  ["phone".data, "photos".data, "contacts".data, "mobile".data]

/-- Automation trigger words. -/
def automationWords : List Txt :=
  ["automate".data, "backup".data, "schedule".data, "desktop".data, "tool".data]

/-- Memory-recall trigger words. -/
def memoryWords : List Txt :=
  ["remember".data, "recall".data, "previous".data, "last time".data]

/-- `any(word in request_lower for word in ...)`. -/
def anyWord (ws : List Txt) (s : Txt) : Bool := ws.any (fun w => containsSub w s)

/-- All trigger words of all six categories. -/
def allWords : List Txt :=
  fileWords ++ researchWords ++ domainWords ++ phoneWords ++ automationWords ++ memoryWords

/-- The transient interpretation dictionary built by `interpret_request`.
`parameters` holds the value of the only key ever written, `"action"`
(`none` models the empty dictionary); `confidence` models the exact float
constants 0.0, 0.7, 0.8, which are never computed with. -/
structure Interp where
  primary_intent : Txt
  agents_needed : List Txt
  parameters : Option Txt
  confidence : Rat
deriving DecidableEq

/-- Nested action test of the file-management branch. -/
def fileAction (rl : Txt) : Option Txt :=
  if containsSub "find".data rl then some "find".data
  else if containsSub "organize".data rl then some "organize".data
  else if containsSub "duplicate".data rl then some "remove_duplicates".data
  else none

/-- Nested action test of the domain-management branch. -/
def domainAction (rl : Txt) : Option Txt :=
  if containsSub "check".data rl || containsSub "status".data rl then some "check_status".data
  else if containsSub "fix".data rl then some "fix_dns".data
  else none

/-- Nested action test of the phone-management branch. -/
def phoneAction (rl : Txt) : Option Txt :=
  if containsSub "photo".data rl then some "sort_photos".data
  else if containsSub "contact".data rl then some "clean_contacts".data
  else none

/-- Nested action test of the automation branch. -/
def automationAction (rl : Txt) : Option Txt :=
  if containsSub "backup".data rl then some "backup".data
  else if containsSub "desktop".data rl then some "organize_desktop".data
  else if containsSub "schedule".data rl then some "schedule_task".data
  else if containsSub "tool".data rl then some "create_tool".data
  else none

/-- The primary `if/elif` cascade of `interpret_request`, applied to the
lowered input.  Each branch overwrites the initial
`unknown / [] / {} / 0.0` dictionary. -/
def interpretCascade (rl : Txt) : Interp :=
  if anyWord fileWords rl then
    ⟨"file_management".data, ["file".data], fileAction rl, (4 : Rat)/5⟩
  else if anyWord researchWords rl then
    ⟨"research".data, ["research".data], none, (4 : Rat)/5⟩
  else if anyWord domainWords rl then
    ⟨"domain_management".data, ["domain".data], domainAction rl, (4 : Rat)/5⟩
  else if anyWord phoneWords rl then
    ⟨"phone_management".data, ["phone".data], phoneAction rl, (4 : Rat)/5⟩
  else if anyWord automationWords rl then
    ⟨"automation".data, ["automation".data], automationAction rl, (4 : Rat)/5⟩
  else if anyWord memoryWords rl then
    ⟨"memory_recall".data, ["memory".data], none, (7 : Rat)/10⟩
  else ⟨"unknown".data, [], none, 0⟩

/-- The unconditional multi-agent override of `interpret_request`: on the
literal phrase `"organize my"` the `agents_needed` list is replaced
outright. -/
def applyOverride (rl : Txt) (itp : Interp) : Interp :=
  if containsSub "organize my".data rl then
    if containsSub "phone".data rl then
      { itp with agents_needed := ["phone".data, "memory".data] }
    else if containsSub "computer".data rl || containsSub "files".data rl then
      { itp with agents_needed := ["file".data, "automation".data, "memory".data] }
    else itp
  else itp

/-- `GuardianOrchestrator.interpret_request`. -/
def interpretRequest (userInput : Txt) : Interp :=
  applyOverride (lowerTxt userInput) (interpretCascade (lowerTxt userInput))

/-- Trigger word sets in the cascade order file-management, research,
domain-management, phone-management, automation, memory-recall. -/
def wordsOfCat : Nat → List Txt
  | 0 => fileWords
  | 1 => researchWords
  | 2 => domainWords
  | 3 => phoneWords
  | 4 => automationWords
  | _ => memoryWords

/-- Intent labels in cascade order. -/
def intentOfCat : Nat → Txt
  | 0 => "file_management".data
  | 1 => "research".data
  | 2 => "domain_management".data
  | 3 => "phone_management".data
  | 4 => "automation".data
  | _ => "memory_recall".data

/-- Handler appended by each cascade branch, in cascade order. -/
def handlerOfCat : Nat → Txt
  | 0 => "file".data
  | 1 => "research".data
  | 2 => "domain".data
  | 3 => "phone".data
  | 4 => "automation".data
  | _ => "memory".data

/-- The external handler adapters (one oracle per concrete agent method
invoked by `_execute_agent_action`).  `Except.error msg` models the adapter
raising an exception with `str(e) = msg`. -/
structure Adapters where
  research_get_information : Txt → Except Txt AgentResponse
  file_find_file : Txt → Except Txt AgentResponse
  file_organize_folder : Txt → Txt → Except Txt AgentResponse
  file_remove_duplicates : Txt → Except Txt AgentResponse
  automation_run_backup : Txt → Txt → Except Txt AgentResponse
  automation_organize_desktop : Except Txt AgentResponse
  automation_schedule_task : Txt → Txt → Except Txt AgentResponse
  automation_create_tool : Txt → Except Txt AgentResponse
  phone_sort_photos : Except Txt AgentResponse
  phone_clean_contacts : Except Txt AgentResponse
  domain_check_domain_status : Txt → Except Txt AgentResponse
  domain_fix_dns : Txt → Txt → Txt → Except Txt AgentResponse

/-- Domain-name extraction inside the domain branch of
`_execute_agent_action`: first whitespace word containing a dot and not
starting with one, stripped of `.,!?`, else `"example.com"`. -/
def extractDomain (input : Txt) : Txt :=
  match (splitWs input).find? (fun w => containsSub ['.'] w && !(startsWith ['.'] w)) with
  | some w => stripChars ".,!?".data w
  | none => "example.com".data

/-- The body of the `try` block of `_execute_agent_action`.  `Except.error`
is a raised exception (about to be caught), `.ok none` is the implicit
`return None` reached when an `if/elif` dispatch chain falls through. -/
def execBody (A : Adapters) (store : Store) (name : Txt) (params : Option Txt)
    (input : Txt) : Except Txt (Option AgentResponse) :=
  if name = "research".data then
    Except.map some (A.research_get_information
      (stripWs (replaceAll (replaceAll input "search for".data []) "research".data [])))
  else if name = "file".data then
    if params.getD "find".data = "find".data then
      Except.map some (A.file_find_file
        (stripWs (replaceAll (replaceAll input "find".data []) "file".data [])))
    else if params.getD "find".data = "organize".data then
      Except.map some (A.file_organize_folder ".".data "type".data)
    else if params.getD "find".data = "remove_duplicates".data then
      Except.map some (A.file_remove_duplicates ".".data)
    else .ok none
  else if name = "automation".data then
    if params.getD "organize_desktop".data = "backup".data then
      Except.map some (A.automation_run_backup "./important_files".data "./backup".data)
    else if params.getD "organize_desktop".data = "organize_desktop".data then
      Except.map some A.automation_organize_desktop
    else if params.getD "organize_desktop".data = "schedule_task".data then
      Except.map some (A.automation_schedule_task
        (stripWs (replaceAll input "schedule".data [])) "tomorrow 9:00 AM".data)
    else if params.getD "organize_desktop".data = "create_tool".data then
      Except.map some (A.automation_create_tool input)
    else .ok none
  else if name = "phone".data then
    if params.getD "sort_photos".data = "sort_photos".data then
      Except.map some A.phone_sort_photos
    else if params.getD "sort_photos".data = "clean_contacts".data then
      Except.map some A.phone_clean_contacts
    else .ok none
  else if name = "domain".data then
    if params.getD "check_status".data = "check_status".data then
      Except.map some (A.domain_check_domain_status (extractDomain input))
    else if params.getD "check_status".data = "fix_dns".data then
      Except.map some (A.domain_fix_dns (extractDomain input) "A".data "192.168.1.1".data)
    else .ok none
  else if name = "memory".data then
    match retrieveRelevant store
        (stripWs (replaceAll (replaceAll input "remember".data []) "recall".data [])) 5 with
    | .error e => .error e.msg
    | .ok past =>
      .ok (some ⟨true,
        "Found ".data ++ natTxt past.length ++ " relevant past interactions".data,
        some [("past_interactions".data, PyVal.vOther)],
        some ["Searched memory for: ".data ++
          stripWs (replaceAll (replaceAll input "remember".data []) "recall".data [])]⟩)
  else .ok (some ⟨false, "Unknown agent: ".data ++ name, none, none⟩)

/-- `GuardianOrchestrator._execute_agent_action`: the `try/except` wrapper
turning a raised exception into a failed response with message
`f"Error in {agent_name}: {str(e)}"`; a fall-through `None` is returned
unchanged. -/
def executeAgentAction (A : Adapters) (store : Store) (name : Txt)
    (params : Option Txt) (input : Txt) : Option AgentResponse :=
  match execBody A store name params input with
  | .ok r => r
  | .error e => some ⟨false, "Error in ".data ++ name ++ ": ".data ++ e, none, none⟩

/-- The dispatch loop of `process_request`.  Each agent response is
appended; reading `.actions_taken` on a `None` response raises
`AttributeError`, which aborts the loop (the collected `all_actions` list
of the source is dead code and is not modelled). -/
def runAgents (A : Adapters) (store : Store) (params : Option Txt) (input : Txt) :
    List Txt → Except PyErr (List AgentResponse)
  | [] => .ok []
  | a :: rest =>
    match executeAgentAction A store a params input with
    | none => .error .attributeError
    | some r =>
      match runAgents A store params input rest with
      | .error e => .error e
      | .ok rs => .ok (r :: rs)

/-- One `data` detail line of the response compiler, emitted only for
`int`/`str` values under a key other than `"results"`. -/
def pyValLine (k : Txt) (v : PyVal) : Option Txt :=
  match v with
  | .vInt n => some ("  - ".data ++ k ++ ": ".data ++ intTxt n)
  | .vStr s => some ("  - ".data ++ k ++ ": ".data ++ s)
  | .vOther => none

/-- The detail lines for one response's `data` mapping. -/
def dataLines : Option (List (Txt × PyVal)) → List Txt
  | none => []
  | some entries =>
    entries.filterMap (fun e => if e.1 = "results".data then none else pyValLine e.1 e.2)

/-- The lines emitted for one successful response: its message, the scalar
data details, and at most the first three `actions_taken` bullets. -/
def successLines (r : AgentResponse) : List Txt :=
  ("✓ ".data ++ r.message) ::
    (dataLines r.data ++
      ((r.actions_taken.getD []).take 3).map (fun a => "  • ".data ++ a))

/-- The fixed advisory tip keyed by intent. -/
def tipLines (intent : Txt) : List Txt :=
  if intent = "file_management".data then
    ["\nTip: I can also help organize files by date, find duplicates, or backup important documents.".data]
  else if intent = "domain_management".data then
    ["\nTip: I can monitor your domains regularly and alert you to any issues.".data]
  else if intent = "phone_management".data then
    ["\nTip: I can also help with backing up your phone data to the cloud.".data]
  else []

/-- `GuardianOrchestrator._compile_response` (its unused `user_input`
parameter is omitted): context note, successes with details, failures,
advisory tip, joined by newlines. -/
def compileResponse (interp : Interp) (responses : List AgentResponse)
    (contextSummary : Txt) : Txt :=
  joinSep ['\n']
    ((if contextSummary.isEmpty then [] else [contextSummary]) ++
     (if (responses.filter (fun r => r.success)).isEmpty then []
      else "Here\x27s what I accomplished:".data ::
        ((responses.filter (fun r => r.success)).map successLines).flatten) ++
     (if (responses.filter (fun r => !r.success)).isEmpty then []
      else "\nSome issues encountered:".data ::
        (responses.filter (fun r => !r.success)).map (fun r => "✗ ".data ++ r.message)) ++
     tipLines interp.primary_intent)

/-- The context note prepended when past interactions were found. -/
def ctxSummary (past : List Row) : Txt :=
  if past.isEmpty then []
  else "Found ".data ++ natTxt past.length ++ " relevant past interactions. ".data

/-- The fixed clarification reply of the unknown-intent short-circuit. -/
def clarifyMsg : Txt :=
  "I\x27m not sure what you\x27d like me to help with. Could you please clarify your request?".data

/-- The `context_tags` string persisted by `process_request`:
`f"{primary_intent},{','.join(agents_needed)}"`. -/
def tagsOf (itp : Interp) : Txt :=
  itp.primary_intent ++ [','] ++ joinSep [','] itp.agents_needed

/-- `GuardianOrchestrator.process_request`: retrieve context (an uncaught
storage error propagates), classify, short-circuit on unknown intent,
dispatch the listed agents in order, compile, persist.  The interpretation
is computed once in the source; repeating the pure call
`interpretRequest input` here is equivalent. -/
def processRequest (A : Adapters) (store : Store) (sid input : Txt) :
    Except PyErr (Txt × Store) :=
  Except.bind (retrieveRelevant store input 3) (fun past =>
    if (interpretRequest input).primary_intent = "unknown".data then
      Except.bind (saveInteraction store input clarifyMsg sid "unknown_intent".data)
        (fun store2 => .ok (clarifyMsg, store2))
    else
      Except.bind (runAgents A store (interpretRequest input).parameters input
          (interpretRequest input).agents_needed) (fun responses =>
        Except.bind (saveInteraction store input
            (compileResponse (interpretRequest input) responses (ctxSummary past)) sid
            (tagsOf (interpretRequest input)))
          (fun store2 =>
            .ok (compileResponse (interpretRequest input) responses (ctxSummary past),
              store2))))

/-- Whether an `Except` computation succeeded. -/
def exOk : Except PyErr (Txt × Store) → Bool
  | .ok _ => true
  | .error _ => false

/-- An empty, reachable store. -/
def emptyStore : Store := ⟨true, [], [], 0⟩

/-- An unreachable store (`sqlite3.connect` raises). -/
def badStore : Store := ⟨false, [], [], 0⟩

/-- The reply of a completed turn (`emptyStore`/`[]` defaults are never
read on a turn that completed). -/
def resMsg : Except PyErr (Txt × Store) → Txt
  | .ok (r, _) => r
  | .error _ => []

/-- The store after a completed turn. -/
def resStore : Except PyErr (Txt × Store) → Store
  | .ok (_, s) => s
  | .error _ => emptyStore

/-- An adapter bundle in which every method returns a plain success. -/
def okResp : AgentResponse := ⟨true, "ok".data, none, none⟩

/-- Oracles that always succeed. -/
def okAdapters : Adapters :=
  ⟨fun _ => .ok okResp, fun _ => .ok okResp, fun _ _ => .ok okResp, fun _ => .ok okResp,
   fun _ _ => .ok okResp, .ok okResp, fun _ _ => .ok okResp, fun _ => .ok okResp,
   .ok okResp, .ok okResp, fun _ => .ok okResp, fun _ _ _ => .ok okResp⟩

/-- Oracles in which `FileAgent.organize_folder` raises. -/
def c6adapters : Adapters :=
  { okAdapters with file_organize_folder := fun _ _ => .error "boom".data }

/-- Oracles in which `ResearchAgent.get_information` raises. -/
def c6wAdapters : Adapters :=
  { okAdapters with research_get_information := fun _ => .error "boom".data }

/-- A one-interaction store whose `user_input` is `"abc"`. -/
def c2row : Interaction := ⟨0, "abc".data, "xyz".data, "default".data, []⟩

/-- Store fixture for the C2 counterexample. -/
def c2store : Store := ⟨true, [c2row], [], 1⟩

/-- Interaction fixture number `n` for the C8 witness. -/
def w8i (n : Nat) : Interaction :=
  ⟨n, "in".data ++ natTxt n, "out".data ++ natTxt n, "s".data, []⟩

/-- A six-interaction store for the C8 witness. -/
def w8store : Store := ⟨true, [w8i 0, w8i 1, w8i 2, w8i 3, w8i 4, w8i 5], [], 6⟩

/-- Input fixture for the C6 counterexample. -/
def c6input : Txt := "organize my files".data

/-- Input fixture with no trigger words. -/
def w5input : Txt := "hello world".data

/-- Input fixture classified as research. -/
def w4input : Txt := "research cats".data

/-- Input fixture for the C10 witness. -/
def w10input : Txt := "organize my desk".data

/-- Session-id fixture. -/
def wsid : Txt := "s".data

/-! ## Helper lemmas -/

theorem startsWith_append_left : ∀ (a b s : Txt),
    startsWith (a ++ b) s = true → startsWith a s = true := by
  intro a
  induction a with
  | nil => intro b s _; rfl
  | cons c ta ih =>
    intro b s h
    cases s with
    | nil => simp [startsWith] at h
    | cons d ts =>
      simp only [List.cons_append, startsWith, Bool.and_eq_true] at h ⊢
      exact ⟨h.1, ih b ts h.2⟩

theorem containsSub_append_left : ∀ (a b s : Txt),
    containsSub (a ++ b) s = true → containsSub a s = true := by
  intro a b s
  induction s with
  | nil =>
    intro h
    simp only [containsSub, List.isEmpty_iff, List.append_eq_nil] at h
    simp [containsSub, h.1]
  | cons d ts ih =>
    intro h
    simp only [containsSub, Bool.or_eq_true] at h ⊢
    cases h with
    | inl h1 => exact Or.inl (startsWith_append_left a b _ h1)
    | inr h2 => exact Or.inr (ih h2)

theorem startsWith_self_append : ∀ (a b : Txt), startsWith a (a ++ b) = true := by
  intro a b
  induction a with
  | nil => rfl
  | cons c ta ih => simp [startsWith, ih]

theorem anyWord_eq_false_of_all {ws : List Txt} {s : Txt}
    (h : ws.all (fun w => !containsSub w s) = true) : anyWord ws s = false := by
  unfold anyWord
  apply List.any_eq_false.mpr
  intro w hw
  have hx := List.all_eq_true.mp h w hw
  simp only [Bool.not_eq_true'] at hx
  simp [hx]

theorem applyOverride_intent (rl : Txt) (itp : Interp) :
    (applyOverride rl itp).primary_intent = itp.primary_intent := by
  unfold applyOverride
  split
  · split
    · rfl
    · split
      · rfl
      · rfl
  · rfl

theorem likeMatchF_stable : ∀ (n m : Nat) (p s : Txt),
    p.length + s.length < n → p.length + s.length < m →
    likeMatchF n p s = likeMatchF m p s := by
  intro n
  induction n with
  | zero => intro m p s hn _; exact absurd hn (Nat.not_lt_zero _)
  | succ n ih =>
    intro m p s hn hm
    cases m with
    | zero => exact absurd hm (Nat.not_lt_zero _)
    | succ m =>
      cases p with
      | nil => cases s <;> rfl
      | cons c ps =>
        simp only [List.length_cons] at hn hm
        cases s with
        | nil =>
          simp only [likeMatchF]
          cases hc : (c == '%') with
          | true =>
            simp only [hc, if_true]
            exact ih m ps []
              (by simp only [List.length_nil] at hn ⊢; omega)
              (by simp only [List.length_nil] at hm ⊢; omega)
          | false => simp [hc]
        | cons d s2 =>
          simp only [List.length_cons] at hn hm
          simp only [likeMatchF]
          cases hc : (c == '%') with
          | true =>
            simp only [hc, if_true]
            rw [ih m ps (d :: s2) (by simp; omega) (by simp; omega),
              ih m (c :: ps) s2 (by simp; omega) (by simp; omega)]
          | false =>
            simp only [hc, Bool.false_eq_true, if_false]
            rw [ih m ps s2 (by omega) (by omega)]

theorem likeMatchF_pct_nil : ∀ (n : Nat) (s : Txt),
    s.length + 1 < n → likeMatchF n ['%'] s = true := by
  intro n
  induction n with
  | zero => intro s h; exact absurd h (Nat.not_lt_zero _)
  | succ n ih =>
    intro s h
    cases s with
    | nil =>
      simp only [likeMatchF, beq_self_eq_true, if_true]
      cases n with
      | zero => omega
      | succ n2 => rfl
    | cons d s2 =>
      simp only [List.length_cons] at h
      simp only [likeMatchF, beq_self_eq_true, if_true]
      rw [ih s2 (by omega)]
      simp

theorem likeMatchF_wcFree : ∀ (t : Txt) (n : Nat) (s : Txt),
    wcFree t = true → t.length + s.length + 1 < n →
    likeMatchF n (t ++ ['%']) s = startsWith t s := by
  intro t
  induction t with
  | nil =>
    intro n s _ h
    simp only [List.nil_append]
    rw [likeMatchF_pct_nil n s (by omega)]
    rfl
  | cons c t ih =>
    intro n s hwc hn
    cases n with
    | zero => exact absurd hn (Nat.not_lt_zero _)
    | succ n =>
      simp only [wcFree, List.all_cons, Bool.and_eq_true, Bool.not_eq_true'] at hwc
      obtain ⟨⟨hc1, hc2⟩, hwc2⟩ := hwc
      cases s with
      | nil =>
        simp only [List.cons_append, likeMatchF, hc1, Bool.false_eq_true, if_false]
        simp [startsWith]
      | cons d s2 =>
        simp only [List.length_cons] at hn
        simp only [List.cons_append, likeMatchF, hc1, Bool.false_eq_true, if_false]
        rw [ih n s2 hwc2 (by omega)]
        simp only [startsWith, hc2, Bool.false_or]

theorem likeMatchF_pct_wcFree : ∀ (s t : Txt) (n : Nat),
    wcFree t = true → t.length + s.length + 2 < n →
    likeMatchF n (pct t) s = containsSub t s := by
  intro s
  induction s with
  | nil =>
    intro t n hwc hn
    cases n with
    | zero => exact absurd hn (Nat.not_lt_zero _)
    | succ n =>
      simp only [pct, likeMatchF, beq_self_eq_true, if_true]
      rw [likeMatchF_wcFree t n [] hwc (by omega)]
      cases t with
      | nil => rfl
      | cons c tt => simp [startsWith, containsSub]
  | cons d s2 ih =>
    intro t n hwc hn
    cases n with
    | zero => exact absurd hn (Nat.not_lt_zero _)
    | succ n =>
      simp only [List.length_cons] at hn
      simp only [pct, likeMatchF, beq_self_eq_true, if_true]
      rw [likeMatchF_wcFree t n (d :: s2) hwc (by simp only [List.length_cons]; omega)]
      have hrec : likeMatchF n ('%' :: (t ++ ['%'])) s2 = containsSub t s2 :=
        ih t n hwc (by omega)
      rw [hrec]
      simp [containsSub]

theorem likeMatch_pct_wcFree (t s : Txt) (h : wcFree t = true) :
    likeMatch (pct t) s = containsSub t s := by
  unfold likeMatch
  exact likeMatchF_pct_wcFree s t _ h (by simp [pct]; omega)

theorem termCond_eq_spec (t : Txt) (it : Interaction) (h : wcFree t = true) :
    termCond t it = specTermCond t it := by
  unfold termCond specTermCond
  rw [likeMatch_pct_wcFree t _ h, likeMatch_pct_wcFree t _ h]

theorem all_termCond_eq_spec : ∀ (ts : List Txt), (∀ t ∈ ts, wcFree t = true) →
    ∀ (it : Interaction),
      ts.all (fun t => termCond t it) = ts.all (fun t => specTermCond t it) := by
  intro ts
  induction ts with
  | nil => intro _ it; rfl
  | cons t rest ih =>
    intro h it
    simp only [List.all_cons]
    rw [termCond_eq_spec t it (h t (List.mem_cons_self t rest)),
      ih (fun x hx => h x (List.mem_cons_of_mem t hx)) it]

theorem insertDesc_all_lt (x : Interaction) : ∀ (l : List Interaction),
    l.all (fun y => decide (x.timestamp < y.timestamp)) = true →
    insertDesc x l = l ++ [x] := by
  intro l
  induction l with
  | nil => intro _; rfl
  | cons y t ih =>
    intro h
    simp only [List.all_cons, Bool.and_eq_true, decide_eq_true_eq] at h
    obtain ⟨h1, h2⟩ := h
    simp only [insertDesc]
    rw [if_neg (by omega), ih h2]
    rfl

theorem timesAsc_tail (a : Interaction) (l : List Interaction)
    (h : timesAsc (a :: l) = true) : timesAsc l = true := by
  cases l with
  | nil => rfl
  | cons b t =>
    simp only [timesAsc, Bool.and_eq_true] at h
    exact h.2

theorem timesAsc_head_lt : ∀ (l : List Interaction) (a : Interaction),
    timesAsc (a :: l) = true →
    l.all (fun y => decide (a.timestamp < y.timestamp)) = true := by
  intro l
  induction l with
  | nil => intro a _; rfl
  | cons b t ih =>
    intro a h
    simp only [timesAsc, Bool.and_eq_true, decide_eq_true_eq] at h
    obtain ⟨hab, h2⟩ := h
    have hb := ih b h2
    simp only [List.all_cons, Bool.and_eq_true, decide_eq_true_eq]
    refine ⟨hab, ?_⟩
    rw [List.all_eq_true] at hb ⊢
    intro y hy
    have := hb y hy
    simp only [decide_eq_true_eq] at this ⊢
    omega

theorem sortDesc_eq_reverse : ∀ (l : List Interaction),
    timesAsc l = true → sortDesc l = l.reverse := by
  intro l
  induction l with
  | nil => intro _; rfl
  | cons a t ih =>
    intro h
    simp only [sortDesc]
    rw [ih (timesAsc_tail a t h)]
    have hrev : t.reverse.all (fun y => decide (a.timestamp < y.timestamp)) = true := by
      apply List.all_eq_true.mpr
      intro y hy
      exact List.all_eq_true.mp (timesAsc_head_lt t a h) y (List.mem_reverse.mp hy)
    rw [insertDesc_all_lt a t.reverse hrev, List.reverse_cons]

theorem find?_filter_key : ∀ (l : List Pref) (k : Txt) (p : Pref), p.key = k →
    List.find? (fun q => q.key == k) (l.filter (fun q => !(q.key == k)) ++ [p]) = some p := by
  intro l k p hp
  induction l with
  | nil => simp [List.find?, hp]
  | cons q t ih =>
    by_cases hq : q.key = k
    · simpa [List.filter_cons, hq] using ih
    · simpa [List.filter_cons, hq, List.find?] using ih

theorem countP_filter_key : ∀ (l : List Pref) (k : Txt) (p : Pref), p.key = k →
    List.countP (fun q => q.key == k) (l.filter (fun q => !(q.key == k)) ++ [p]) = 1 := by
  intro l k p hp
  rw [List.countP_append]
  have h0 : List.countP (fun q => q.key == k) (l.filter (fun q => !(q.key == k))) = 0 := by
    induction l with
    | nil => rfl
    | cons q t ih => by_cases hq : q.key = k <;> simp [List.filter_cons, List.countP_cons, hq, ih]
  rw [h0]
  simp [List.countP_cons, hp]

theorem runAgents_all_some (A : Adapters) (store : Store) (params : Option Txt)
    (input : Txt) : ∀ (agents : List Txt),
    (∀ a ∈ agents, (executeAgentAction A store a params input).isSome = true) →
    runAgents A store params input agents =
      .ok (agents.filterMap (fun a => executeAgentAction A store a params input)) := by
  intro agents
  induction agents with
  | nil => intro _; rfl
  | cons a rest ih =>
    intro h
    have ha := h a (List.mem_cons_self a rest)
    cases hx : executeAgentAction A store a params input with
    | none => rw [hx] at ha; simp at ha
    | some r =>
      simp only [runAgents, hx]
      rw [ih (fun b hb => h b (List.mem_cons_of_mem a hb))]
      simp [List.filterMap_cons, hx]

theorem exBind_ok {α β : Type} (a : α) (f : α → Except PyErr β) :
    Except.bind (Except.ok a) f = f a := rfl

theorem exBind_error {α β : Type} (e : PyErr) (f : α → Except PyErr β) :
    Except.bind (Except.error e : Except PyErr α) f = Except.error e := rfl

theorem storeMk_reachable (b : Bool) (ints : List Interaction) (p : List Pref) (n : Nat) :
    (Store.mk b ints p n).reachable = b := rfl

theorem storeMk_prefs (b : Bool) (ints : List Interaction) (p : List Pref) (n : Nat) :
    (Store.mk b ints p n).prefs = p := rfl

theorem storeMk_nextTime (b : Bool) (ints : List Interaction) (p : List Pref) (n : Nat) :
    (Store.mk b ints p n).nextTime = n := rfl

theorem saveInteraction_ok (store : Store) (ui ao sid tags : Txt)
    (hb : store.reachable = true) :
    saveInteraction store ui ao sid tags = .ok { store with
      interactions := store.interactions ++ [⟨store.nextTime, ui, ao, sid, tags⟩],
      nextTime := store.nextTime + 1 } := by
  unfold saveInteraction
  rw [if_pos hb]

theorem saveInteraction_error (store : Store) (ui ao sid tags : Txt)
    (hb : store.reachable = false) :
    saveInteraction store ui ao sid tags = .error .storageError := by
  unfold saveInteraction
  rw [if_neg (by simp [hb])]

theorem retrieveRelevant_error (store : Store) (query : Txt) (limit : Nat)
    (hb : store.reachable = false) :
    retrieveRelevant store query limit = .error .storageError := by
  unfold retrieveRelevant
  rw [if_neg (by simp [hb])]

theorem processRequest_ok_shape (A : Adapters) (store : Store) (sid input r : Txt)
    (store2 : Store) (h : processRequest A store sid input = .ok (r, store2))
    (h2 : ¬ (interpretRequest input).primary_intent = "unknown".data) :
    store2.interactions = store.interactions ++
      [⟨store.nextTime, input, r, sid, tagsOf (interpretRequest input)⟩] := by
  unfold processRequest at h
  cases hRet : retrieveRelevant store input 3 with
  | error e =>
    rw [hRet, exBind_error] at h
    exact Except.noConfusion h
  | ok past =>
    rw [hRet] at h
    simp only [exBind_ok] at h
    rw [if_neg h2] at h
    cases hRun : runAgents A store (interpretRequest input).parameters input
        (interpretRequest input).agents_needed with
    | error e =>
      rw [hRun, exBind_error] at h
      exact Except.noConfusion h
    | ok rs =>
      rw [hRun] at h
      simp only [exBind_ok] at h
      by_cases hb : store.reachable = true
      · rw [saveInteraction_ok _ _ _ _ _ hb] at h
        simp only [exBind_ok, Except.ok.injEq, Prod.mk.injEq] at h
        obtain ⟨h7, h8⟩ := h
        subst h7
        subst h8
        rfl
      · have hb2 : store.reachable = false := by
          revert hb; cases store.reachable <;> simp
        rw [saveInteraction_error _ _ _ _ _ hb2, exBind_error] at h
        exact Except.noConfusion h

theorem processRequest_completes (A : Adapters) (store : Store) (sid input : Txt)
    (hb : store.reachable = true)
    (h2 : ¬ (interpretRequest input).primary_intent = "unknown".data)
    (hall : ∀ a ∈ (interpretRequest input).agents_needed,
      (executeAgentAction A store a (interpretRequest input).parameters input).isSome = true) :
    exOk (processRequest A store sid input) = true := by
  obtain ⟨past, hRet⟩ : ∃ p, retrieveRelevant store input 3 = .ok p := by
    unfold retrieveRelevant
    rw [if_pos hb]
    exact ⟨_, rfl⟩
  unfold processRequest
  rw [hRet]
  simp only [exBind_ok]
  rw [if_neg h2]
  rw [runAgents_all_some A store _ input _ hall]
  simp only [exBind_ok]
  rw [saveInteraction_ok _ _ _ _ _ hb]
  rfl

/-! ## Claim theorems -/

/-- Claim C1, counterexample.  At the concrete input `"research cats"` with
an unreachable interaction store, `retrieve_relevant` raises a storage error
(it does not return an empty sequence), and that exception escapes
`process_request`: the turn does not complete.  This refutes the claim that
no exception escapes the turn. -/
theorem C1_counterexample :
    retrieveRelevant badStore w4input 3 = .error .storageError ∧
    processRequest okAdapters badStore wsid w4input = .error .storageError :=
  ⟨rfl, rfl⟩

/-- Claim C1, amended: when the interaction store is unreachable on read,
`retrieve_relevant` raises a storage error instead of returning an empty
sequence, and the exception escapes `process_request`, so the turn fails for
every input and every adapter bundle (it is caught only by the CLI read
loop, outside the turn). -/
theorem C1_amended (store : Store) (h : store.reachable = false) (q : Txt)
    (lim : Nat) (A : Adapters) (sid input : Txt) :
    retrieveRelevant store q lim = .error .storageError ∧
    processRequest A store sid input = .error .storageError := by
  refine ⟨retrieveRelevant_error store q lim h, ?_⟩
  unfold processRequest
  rw [retrieveRelevant_error store input 3 h, exBind_error]

/-- Claim C1, witness for the amended theorem at a concrete unreachable
store and input. -/
theorem C1_amended_witness :
    badStore.reachable = false ∧
    retrieveRelevant badStore "alpha beta".data 4 = .error .storageError ∧
    processRequest okAdapters badStore wsid "alpha beta".data = .error .storageError := by
  refine ⟨rfl, ?_, ?_⟩
  · exact (C1_amended badStore rfl "alpha beta".data 4 okAdapters wsid "alpha beta".data).1
  · exact (C1_amended badStore rfl "alpha beta".data 4 okAdapters wsid "alpha beta".data).2

/-- Claim C2, counterexample.  The store holds one interaction whose
`user_input` is `"abc"`.  The query term `"a_c"` is not a literal substring
of either stored field (`specTermCond` is `false`), yet `retrieve_relevant`
returns the interaction, because the `_` in the term acts as a SQL `LIKE`
single-character wildcard (the pattern `%a_c%` has no `ESCAPE` clause).
This refutes the claim that terms with special characters are matched
literally. -/
theorem C2_counterexample :
    retrieveRelevant c2store "a_c".data 5 = .ok [⟨0, "abc".data, "xyz".data, []⟩] ∧
    specTermCond "a_c".data c2row = false :=
  ⟨rfl, by decide⟩

/-- Claim C2, amended: for a query whose whitespace-separated lower-cased
terms are all free of the SQL wildcard characters `%` and `_`,
`retrieve_relevant` returns exactly the stored interactions in which every
term occurs as a case-insensitive literal substring of `user_input` or
`agent_output`, newest first, truncated to `limit`; when no interaction
matches all terms it returns an empty sequence and never raises an error.
Terms containing `%` or `_` are instead interpreted with SQL `LIKE`
wildcard semantics (see the counterexample). -/
theorem C2_amended (store : Store) (q : Txt) (lim : Nat)
    (hb : store.reachable = true)
    (hne : ¬ splitWs (lowerTxt q) = [])
    (hwc : ∀ t ∈ splitWs (lowerTxt q), wcFree t = true) :
    retrieveRelevant store q lim =
      .ok (((sortDesc (store.interactions.filter
          (fun it => (splitWs (lowerTxt q)).all (fun t => specTermCond t it)))).take
            lim).map toRow) ∧
    (store.interactions.filter
        (fun it => (splitWs (lowerTxt q)).all (fun t => specTermCond t it)) = [] →
      retrieveRelevant store q lim = .ok []) := by
  have hie : (splitWs (lowerTxt q)).isEmpty = false := by
    cases hS : splitWs (lowerTxt q) with
    | nil => exact absurd hS hne
    | cons a l => rfl
  have hmain : retrieveRelevant store q lim =
      .ok (((sortDesc (store.interactions.filter
          (fun it => (splitWs (lowerTxt q)).all (fun t => specTermCond t it)))).take
            lim).map toRow) := by
    unfold retrieveRelevant
    rw [if_pos hb]
    rw [if_neg (by simp [hie])]
    rw [List.filter_congr (fun it _ => all_termCond_eq_spec _ hwc it)]
  refine ⟨hmain, fun hnil => ?_⟩
  rw [hmain, hnil]
  simp [sortDesc]

/-- Claim C2, witness for the amended theorem: a concrete wildcard-free
query on a concrete store. -/
theorem C2_amended_witness :
    retrieveRelevant c2store "ab".data 5 =
      .ok (((sortDesc (c2store.interactions.filter
          (fun it => (splitWs (lowerTxt "ab".data)).all
            (fun t => specTermCond t it)))).take 5).map toRow) :=
  (C2_amended c2store "ab".data 5 rfl (by decide) (by decide)).1

/-- Claim C3: on the input `"organize my phone and files"` the primary
cascade produces the handler set `["file"]`, and the phone branch of the
`"organize my"` override then replaces it by exactly `["phone", "memory"]`
(the computer/files branch does not additionally fire, and the override
replaces rather than unions). -/
theorem C3_override_exact :
    (interpretCascade (lowerTxt "organize my phone and files".data)).agents_needed =
      ["file".data] ∧
    (interpretRequest "organize my phone and files".data).agents_needed =
      ["phone".data, "memory".data] :=
  ⟨by decide, by decide⟩

/-- Claim C4: first-match-wins.  For every input and every category index
`i` (in the fixed cascade order file-management, research,
domain-management, phone-management, automation, memory-recall), if no
earlier category's trigger words appear in the lowered input but category
`i`'s do, then `interpret_request` classifies the input with category `i`'s
intent, and the primary cascade emits exactly that single category's
handler: only one branch of the exclusive `if/elif` chain fires. -/
theorem C4_first_match_wins (input : Txt) (i : Nat) (hi : i < 6)
    (hbefore : ∀ j, j < i → anyWord (wordsOfCat j) (lowerTxt input) = false)
    (hit : anyWord (wordsOfCat i) (lowerTxt input) = true) :
    (interpretRequest input).primary_intent = intentOfCat i ∧
    (interpretCascade (lowerTxt input)).agents_needed = [handlerOfCat i] := by
  unfold interpretRequest
  rw [applyOverride_intent]
  interval_cases i
  · simp only [wordsOfCat] at hit
    unfold interpretCascade
    rw [if_pos hit]
    exact ⟨rfl, rfl⟩
  · have h0 := hbefore 0 (by omega)
    simp only [wordsOfCat] at h0 hit
    unfold interpretCascade
    rw [if_neg (by simp [h0]), if_pos hit]
    exact ⟨rfl, rfl⟩
  · have h0 := hbefore 0 (by omega)
    have h1 := hbefore 1 (by omega)
    simp only [wordsOfCat] at h0 h1 hit
    unfold interpretCascade
    rw [if_neg (by simp [h0]), if_neg (by simp [h1]), if_pos hit]
    exact ⟨rfl, rfl⟩
  · have h0 := hbefore 0 (by omega)
    have h1 := hbefore 1 (by omega)
    have h2 := hbefore 2 (by omega)
    simp only [wordsOfCat] at h0 h1 h2 hit
    unfold interpretCascade
    rw [if_neg (by simp [h0]), if_neg (by simp [h1]), if_neg (by simp [h2]), if_pos hit]
    exact ⟨rfl, rfl⟩
  · have h0 := hbefore 0 (by omega)
    have h1 := hbefore 1 (by omega)
    have h2 := hbefore 2 (by omega)
    have h3 := hbefore 3 (by omega)
    simp only [wordsOfCat] at h0 h1 h2 h3 hit
    unfold interpretCascade
    rw [if_neg (by simp [h0]), if_neg (by simp [h1]), if_neg (by simp [h2]),
      if_neg (by simp [h3]), if_pos hit]
    exact ⟨rfl, rfl⟩
  · have h0 := hbefore 0 (by omega)
    have h1 := hbefore 1 (by omega)
    have h2 := hbefore 2 (by omega)
    have h3 := hbefore 3 (by omega)
    have h4 := hbefore 4 (by omega)
    simp only [wordsOfCat] at h0 h1 h2 h3 h4 hit
    unfold interpretCascade
    rw [if_neg (by simp [h0]), if_neg (by simp [h1]), if_neg (by simp [h2]),
      if_neg (by simp [h3]), if_neg (by simp [h4]), if_pos hit]
    exact ⟨rfl, rfl⟩

/-- Claim C4, witness: `"research cats"` contains a research trigger word
and no file-management trigger word, so it is classified as research. -/
theorem C4_witness :
    anyWord (wordsOfCat 0) (lowerTxt w4input) = false ∧
    anyWord (wordsOfCat 1) (lowerTxt w4input) = true ∧
    (interpretRequest w4input).primary_intent = intentOfCat 1 ∧
    (interpretCascade (lowerTxt w4input)).agents_needed = [handlerOfCat 1] := by
  have hmain := C4_first_match_wins w4input 1 (by omega)
    (fun j hj => by
      have hj0 : j = 0 := by omega
      subst hj0
      decide)
    (by decide)
  exact ⟨by decide, by decide, hmain.1, hmain.2⟩

/-- Claim C5: an input containing none of the defined trigger words of any
category is interpreted as `primary_intent = "unknown"` with an empty
`agents_needed` list, empty parameters, and confidence `0.0`. -/
theorem C5_unknown_on_no_triggers (input : Txt)
    (h : allWords.all (fun w => !containsSub w (lowerTxt input)) = true) :
    interpretRequest input = ⟨"unknown".data, [], none, 0⟩ := by
  have hall : ∀ w ∈ allWords, (!containsSub w (lowerTxt input)) = true :=
    List.all_eq_true.mp h
  have hcat : ∀ (ws : List Txt), (∀ w ∈ ws, w ∈ allWords) →
      anyWord ws (lowerTxt input) = false := by
    intro ws hsub
    exact anyWord_eq_false_of_all (List.all_eq_true.mpr (fun w hw => hall w (hsub w hw)))
  have hF := hcat fileWords (fun w hw => by
    unfold allWords; simp only [List.mem_append]; tauto)
  have hR := hcat researchWords (fun w hw => by
    unfold allWords; simp only [List.mem_append]; tauto)
  have hD := hcat domainWords (fun w hw => by
    unfold allWords; simp only [List.mem_append]; tauto)
  have hP := hcat phoneWords (fun w hw => by
    unfold allWords; simp only [List.mem_append]; tauto)
  have hA := hcat automationWords (fun w hw => by
    unfold allWords; simp only [List.mem_append]; tauto)
  have hM := hcat memoryWords (fun w hw => by
    unfold allWords; simp only [List.mem_append]; tauto)
  have horgMem : "organize".data ∈ allWords := by
    unfold allWords
    simp only [List.mem_append]
    have : "organize".data ∈ fileWords := by simp [fileWords]
    tauto
  have hOM : ¬ containsSub "organize my".data (lowerTxt input) = true := by
    intro hcase
    have h1 : containsSub "organize".data (lowerTxt input) = true := by
      apply containsSub_append_left "organize".data " my".data
      rw [show "organize".data ++ " my".data = "organize my".data by decide]
      exact hcase
    have h2 := hall "organize".data horgMem
    rw [h1] at h2
    simp at h2
  have hc : interpretCascade (lowerTxt input) = ⟨"unknown".data, [], none, 0⟩ := by
    unfold interpretCascade
    rw [if_neg (by simp [hF]), if_neg (by simp [hR]), if_neg (by simp [hD]),
      if_neg (by simp [hP]), if_neg (by simp [hA]), if_neg (by simp [hM])]
  unfold interpretRequest
  rw [hc]
  unfold applyOverride
  rw [if_neg hOM]

/-- Claim C5, witness: `"hello world"` contains no trigger word and is
classified as unknown. -/
theorem C5_witness :
    allWords.all (fun w => !containsSub w (lowerTxt w5input)) = true ∧
    interpretRequest w5input = ⟨"unknown".data, [], none, 0⟩ :=
  ⟨by decide, C5_unknown_on_no_triggers w5input (by decide)⟩

/-- Claim C6, counterexample.  On `"organize my files"` the override yields
the three handlers `["file", "automation", "memory"]`; with a file adapter
that raises, the fault is indeed converted into a failed outcome, but the
automation dispatch then falls through (its inherited action `"organize"`
matches no automation branch) and returns `None`, so `process_request`
raises `AttributeError`: the memory handler is never invoked and no reply
is persisted.  This refutes the claim that every subsequent handler still
runs and a reply is still persisted. -/
theorem C6_counterexample :
    (interpretRequest c6input).agents_needed =
      ["file".data, "automation".data, "memory".data] ∧
    executeAgentAction c6adapters emptyStore "file".data
        (interpretRequest c6input).parameters c6input =
      some ⟨false, "Error in file: boom".data, none, none⟩ ∧
    processRequest c6adapters emptyStore wsid c6input = .error .attributeError :=
  ⟨by decide, rfl, rfl⟩

/-- Claim C6, amended.  First part: whenever the body of
`_execute_agent_action` raises, the wrapper converts the fault into a
failed outcome whose message carries the agent name and the fault text.
Second part: for a reachable store and a non-unknown intent, provided every
dispatched handler returns an outcome (no `if/elif` fall-through to
`None`), the orchestrator invokes every listed handler in order, collects
exactly their outcomes (failed ones included), completes the turn and
persists the compiled reply.  When some handler's dispatch does fall
through and return `None`, `process_request` raises `AttributeError` at
that handler, skips the remaining handlers and persists nothing — as the
counterexample shows on the multi-handler request `"organize my files"`. -/
theorem C6_amended :
    (∀ (A : Adapters) (store : Store) (name : Txt) (params : Option Txt) (input e : Txt),
      execBody A store name params input = .error e →
      executeAgentAction A store name params input =
        some ⟨false, "Error in ".data ++ name ++ ": ".data ++ e, none, none⟩) ∧
    (∀ (A : Adapters) (store : Store) (sid input : Txt),
      store.reachable = true →
      ¬ (interpretRequest input).primary_intent = "unknown".data →
      (∀ a ∈ (interpretRequest input).agents_needed,
        (executeAgentAction A store a (interpretRequest input).parameters input).isSome
          = true) →
      runAgents A store (interpretRequest input).parameters input
          (interpretRequest input).agents_needed =
        .ok ((interpretRequest input).agents_needed.filterMap
          (fun a => executeAgentAction A store a (interpretRequest input).parameters input)) ∧
      exOk (processRequest A store sid input) = true ∧
      (resStore (processRequest A store sid input)).interactions =
        store.interactions ++
          [⟨store.nextTime, input, resMsg (processRequest A store sid input), sid,
            tagsOf (interpretRequest input)⟩]) := by
  constructor
  · intro A store name params input e h
    unfold executeAgentAction
    rw [h]
  · intro A store sid input hb h2 hall
    refine ⟨runAgents_all_some A store _ input _ hall, ?_, ?_⟩
    · exact processRequest_completes A store sid input hb h2 hall
    · cases hE : processRequest A store sid input with
      | error e =>
        have hok := processRequest_completes A store sid input hb h2 hall
        rw [hE] at hok
        simp [exOk] at hok
      | ok p =>
        obtain ⟨r, store2⟩ := p
        simp only [resStore, resMsg]
        exact processRequest_ok_shape A store sid input r store2 hE h2

/-- Claim C6, witness for the amended theorem: the research adapter raises
on `"research cats"`; its fault becomes a failed outcome, the turn still
completes and the reply is persisted. -/
theorem C6_amended_witness :
    executeAgentAction c6wAdapters emptyStore "research".data none "research cats".data =
      some ⟨false, "Error in research: boom".data, none, none⟩ ∧
    exOk (processRequest c6wAdapters emptyStore wsid w4input) = true ∧
    (resStore (processRequest c6wAdapters emptyStore wsid w4input)).interactions =
      emptyStore.interactions ++
        [⟨emptyStore.nextTime, w4input,
          resMsg (processRequest c6wAdapters emptyStore wsid w4input), wsid,
          tagsOf (interpretRequest w4input)⟩] := by
  refine ⟨?_, ?_, ?_⟩
  · exact C6_amended.1 c6wAdapters emptyStore "research".data none "research cats".data
      "boom".data rfl
  · exact (C6_amended.2 c6wAdapters emptyStore wsid w4input rfl (by decide) (by decide)).2.1
  · exact (C6_amended.2 c6wAdapters emptyStore wsid w4input rfl (by decide) (by decide)).2.2

/-- Claim C7: for every processed request whose primary intent is not
unknown (every completed turn), the interaction persisted at the end of the
turn carries the raw input, the compiled reply, and `context_tags` equal to
the primary intent followed by a comma and the comma-joined dispatched
handler names of that same request. -/
theorem C7_context_tags (A : Adapters) (store : Store) (sid input r : Txt)
    (store2 : Store) (h : processRequest A store sid input = .ok (r, store2))
    (h2 : ¬ (interpretRequest input).primary_intent = "unknown".data) :
    store2.interactions = store.interactions ++
      [⟨store.nextTime, input, r, sid, tagsOf (interpretRequest input)⟩] :=
  processRequest_ok_shape A store sid input r store2 h h2

/-- Claim C7, witness at the concrete request `"research cats"`. -/
theorem C7_witness :
    ¬ (interpretRequest w4input).primary_intent = "unknown".data ∧
    (resStore (processRequest okAdapters emptyStore wsid w4input)).interactions =
      emptyStore.interactions ++
        [⟨emptyStore.nextTime, w4input,
          resMsg (processRequest okAdapters emptyStore wsid w4input), wsid,
          tagsOf (interpretRequest w4input)⟩] := by
  refine ⟨by decide, ?_⟩
  have h : processRequest okAdapters emptyStore wsid w4input =
      .ok (resMsg (processRequest okAdapters emptyStore wsid w4input),
           resStore (processRequest okAdapters emptyStore wsid w4input)) := rfl
  exact C7_context_tags okAdapters emptyStore wsid w4input _ _ h (by decide)

/-- Claim C8: on a reachable store whose timestamps increase in insertion
order (as all stores built by `save_interaction` do), the empty-string
query with limit 5 applies no term filter and returns the 5 most recently
recorded interactions, newest first. -/
theorem C8_empty_query_recent (store : Store) (hb : store.reachable = true)
    (ha : timesAsc store.interactions = true) :
    retrieveRelevant store "".data 5 =
      .ok (((store.interactions.reverse).take 5).map toRow) := by
  unfold retrieveRelevant
  rw [if_pos hb]
  rw [show splitWs (lowerTxt "".data) = [] from rfl]
  simp only [List.isEmpty_nil, if_true]
  rw [sortDesc_eq_reverse _ ha]

/-- Claim C8, witness on a concrete six-interaction store. -/
theorem C8_witness :
    w8store.reachable = true ∧
    timesAsc w8store.interactions = true ∧
    retrieveRelevant w8store "".data 5 =
      .ok (((w8store.interactions.reverse).take 5).map toRow) :=
  ⟨rfl, by decide, C8_empty_query_recent w8store rfl (by decide)⟩

/-- Claim C9: preference upsert round-trip.  Setting key `k` to `v` then
reading `k` yields `v`; a second set to `v2` makes the read yield `v2`; and
after the two writes exactly one row with key `k` exists (the
`INSERT OR REPLACE` overwrites in place, leaving no duplicate). -/
theorem C9_preference_roundtrip (store : Store) (k v v2 : Txt)
    (hb : store.reachable = true) :
    Except.bind (setPreference store k v) (fun s1 => getPreference s1 k) =
      .ok (some v) ∧
    Except.bind (setPreference store k v) (fun s1 =>
      Except.bind (setPreference s1 k v2) (fun s2 => getPreference s2 k)) =
      .ok (some v2) ∧
    Except.bind (setPreference store k v) (fun s1 =>
      Except.bind (setPreference s1 k v2) (fun s2 =>
        .ok (s2.prefs.countP (fun q => q.key == k)))) = .ok 1 := by
  have hset1 : setPreference store k v = .ok { store with
      prefs := store.prefs.filter (fun q => !(q.key == k)) ++ [⟨k, v, store.nextTime⟩],
      nextTime := store.nextTime + 1 } := by
    unfold setPreference
    rw [if_pos hb]
  have hprefs2 : ((store.prefs.filter (fun q => !(q.key == k)) ++
      ([⟨k, v, store.nextTime⟩] : List Pref)).filter (fun q => !(q.key == k))) =
      store.prefs.filter (fun q => !(q.key == k)) := by
    rw [List.filter_append]
    have hsingle : (([⟨k, v, store.nextTime⟩] : List Pref).filter
        (fun q => !(q.key == k))) = [] := by
      simp [List.filter]
    rw [hsingle, List.append_nil, List.filter_filter]
    exact List.filter_congr (fun a _ => Bool.and_self _)
  refine ⟨?_, ?_, ?_⟩
  · rw [hset1]
    simp only [exBind_ok]
    unfold getPreference
    simp only [storeMk_reachable, storeMk_prefs]
    rw [if_pos hb]
    rw [find?_filter_key store.prefs k ⟨k, v, store.nextTime⟩ rfl]
    rfl
  · rw [hset1]
    simp only [exBind_ok]
    unfold setPreference getPreference
    simp only [storeMk_reachable, storeMk_prefs, storeMk_nextTime]
    rw [if_pos hb]
    simp only [exBind_ok, storeMk_reachable, storeMk_prefs, storeMk_nextTime]
    rw [if_pos hb]
    rw [hprefs2]
    rw [find?_filter_key store.prefs k ⟨k, v2, store.nextTime + 1⟩ rfl]
    rfl
  · rw [hset1]
    simp only [exBind_ok]
    unfold setPreference
    simp only [storeMk_reachable, storeMk_prefs, storeMk_nextTime]
    rw [if_pos hb]
    simp only [exBind_ok, storeMk_prefs]
    rw [hprefs2]
    rw [countP_filter_key store.prefs k ⟨k, v2, store.nextTime + 1⟩ rfl]

/-- Claim C9, witness at concrete key and values on the empty store. -/
theorem C9_witness :
    Except.bind (setPreference emptyStore "k".data "v".data)
      (fun s1 => getPreference s1 "k".data) = .ok (some "v".data) ∧
    Except.bind (setPreference emptyStore "k".data "v".data) (fun s1 =>
      Except.bind (setPreference s1 "k".data "v2".data)
        (fun s2 => getPreference s2 "k".data)) = .ok (some "v2".data) ∧
    Except.bind (setPreference emptyStore "k".data "v".data) (fun s1 =>
      Except.bind (setPreference s1 "k".data "v2".data) (fun s2 =>
        .ok (s2.prefs.countP (fun q => q.key == "k".data)))) = .ok 1 :=
  C9_preference_roundtrip emptyStore "k".data "v".data "v2".data rfl

/-- Claim C10: every input whose lowered text contains `"organize my"` also
contains the file-management trigger `"organize"`, so the cascade's first
branch fires and `interpret_request` returns primary intent
`"file_management"` (never unknown, phone or automation); consequently
whenever such a request completes a turn (even with the override forcing
`agents_needed` to `["phone", "memory"]`), the persisted `context_tags`
begin with `"file_management"`. -/
theorem C10_organize_my_intent (input : Txt)
    (h : containsSub "organize my".data (lowerTxt input) = true) :
    (interpretRequest input).primary_intent = "file_management".data ∧
    ∀ (A : Adapters) (store : Store) (sid r : Txt) (store2 : Store),
      processRequest A store sid input = .ok (r, store2) →
      store2.interactions = store.interactions ++
        [⟨store.nextTime, input, r, sid, tagsOf (interpretRequest input)⟩] ∧
      startsWith "file_management".data (tagsOf (interpretRequest input)) = true := by
  have horg : containsSub "organize".data (lowerTxt input) = true := by
    apply containsSub_append_left "organize".data " my".data
    rw [show "organize".data ++ " my".data = "organize my".data by decide]
    exact h
  have hfile : anyWord fileWords (lowerTxt input) = true := by
    unfold anyWord
    apply List.any_eq_true.mpr
    exact ⟨"organize".data, by simp [fileWords], horg⟩
  have hintent : (interpretRequest input).primary_intent = "file_management".data := by
    unfold interpretRequest
    rw [applyOverride_intent]
    unfold interpretCascade
    rw [if_pos hfile]
  refine ⟨hintent, ?_⟩
  intro A store sid r store2 hP
  have h2 : ¬ (interpretRequest input).primary_intent = "unknown".data := by
    rw [hintent]
    decide
  refine ⟨processRequest_ok_shape A store sid input r store2 hP h2, ?_⟩
  unfold tagsOf
  rw [hintent, List.append_assoc]
  exact startsWith_self_append _ _

/-- Claim C10, witness: `"organize my desk"` completes a turn and its
persisted tags begin with `"file_management"`. -/
theorem C10_witness :
    containsSub "organize my".data (lowerTxt w10input) = true ∧
    (interpretRequest w10input).primary_intent = "file_management".data ∧
    (resStore (processRequest okAdapters emptyStore wsid w10input)).interactions =
      emptyStore.interactions ++
        [⟨emptyStore.nextTime, w10input,
          resMsg (processRequest okAdapters emptyStore wsid w10input), wsid,
          tagsOf (interpretRequest w10input)⟩] ∧
    startsWith "file_management".data (tagsOf (interpretRequest w10input)) = true := by
  have hmain := C10_organize_my_intent w10input (by decide)
  have hE : processRequest okAdapters emptyStore wsid w10input =
      .ok (resMsg (processRequest okAdapters emptyStore wsid w10input),
           resStore (processRequest okAdapters emptyStore wsid w10input)) := rfl
  obtain ⟨h1, h2⟩ := hmain
  obtain ⟨h3, h4⟩ := h2 okAdapters emptyStore wsid _ _ hE
  exact ⟨by decide, h1, h3, h4⟩
